import Mathlib

/-!
Shallow embedding of the query-formula compiler in
`src/utils/query-helpers.ts` of the airtable-mcp-server repository.

Conventions of the embedding:
* TypeScript strings are Lean `String`s (lists of characters); JavaScript
  string operations are embedded as explicit recursions on `String.data`.
* JavaScript numbers are modelled by `JSNum`: the non-finite values
  `NaN`, `Infinity`, `-Infinity` plus finite values restricted to
  integers (every numeric literal appearing in the claims is integral;
  rendering of a finite integer matches JavaScript's rendering).
* Functions that `throw` are embedded as `Except String` computations,
  `.error` carrying the thrown message.
* Optional parameters (`undefined`/absent) are embedded as `Option`.
-/

/-- The single-quote character `'` (codepoint 39). -/
def squote : Char := '\x27'

/-- The backslash character (codepoint 92). -/
def bslash : Char := '\\'

/-- The opening curly brace (codepoint 123). -/
def lbrace : Char := '\x7b'

/-- The closing curly brace (codepoint 125). -/
def rbrace : Char := '\x7d'

/-- Character-level embedding of `str.replace(/'/g, "''")`: a global
single-character regex replacement expands each character independently,
doubling every single quote and leaving every other character unchanged. -/
def escapeChars : List Char → List Char
  | [] => []
  | c :: cs =>
    if c = squote then squote :: squote :: escapeChars cs
    else c :: escapeChars cs

/-- Embeds `escapeFormulaString` (query-helpers.ts lines 108-111):
`return str.replace(/'/g, "''")`. -/
def escapeFormulaString (str : String) : String :=
  (escapeChars str.data).asString

/-- Holds (is `true`) iff every single quote in the character list is part of an
adjacent quote pair (quotes occur only as immediately-paired doubles):
the "no unescaped single quote" property of the spec. -/
def pairedQuotes : List Char → Bool
  | [] => true
  | [c] => c ≠ squote
  | c :: c2 :: rest =>
    if c = squote then c2 = squote && pairedQuotes rest
    else pairedQuotes (c2 :: rest)

/-- Holds (is `true`) iff the character list contains a backslash immediately
followed by a single quote (a backslash-quote pair). -/
def hasBackslashQuote : List Char → Bool
  | [] => false
  | [_] => false
  | c :: c2 :: rest => (c = bslash && c2 = squote) || hasBackslashQuote (c2 :: rest)

/-- The per-character expansion performed by the escaping: a quote
becomes two quotes, any other character is unchanged. -/
def expandChar (c : Char) : List Char :=
  if c = squote then [squote, squote] else [c]

/-- Head-is-quote test, used to track backslash-quote adjacency. -/
def headIsQuote : List Char → Bool
  | [] => false
  | c :: _ => c = squote

/-- Codepoints that JavaScript counts as WhiteSpace or LineTerminator (the
set trimmed by the builtin `trim`): tab, LF, VT, FF, CR, space,
NBSP, Ogham space, the en/em spaces, line/paragraph separator, narrow
NBSP, medium mathematical space, ideographic space and BOM. -/
def jsWhitespaceCodes : List Nat :=
  [0x9, 0xa, 0xb, 0xc, 0xd, 0x20, 0xa0, 0x1680,
   0x2000, 0x2001, 0x2002, 0x2003, 0x2004, 0x2005, 0x2006, 0x2007,
   0x2008, 0x2009, 0x200a, 0x2028, 0x2029, 0x202f, 0x205f, 0x3000, 0xfeff]

/-- Holds (is `true`) iff the `trim` of JavaScript removes this character. -/
def jsWhitespace (c : Char) : Bool := jsWhitespaceCodes.contains c.toNat

/-- Embedding of `String.prototype.trim`: drop leading and trailing
JavaScript whitespace. -/
def jsTrim (s : String) : String :=
  (((s.data.dropWhile jsWhitespace).reverse.dropWhile jsWhitespace).reverse).asString

/-- The character class of the regex `/[{}\n\r]/` used by
`sanitizeFieldName`. -/
def forbiddenFieldChar (c : Char) : Bool :=
  c = lbrace || c = rbrace || c = '\n' || c = '\r'

/-- Embeds `sanitizeFieldName` (query-helpers.ts lines 121-135): rejects
a field name matching `/[{}\n\r]/`, trims it, rejects the result when
empty, and otherwise returns the trimmed name.  `throw` is embedded as
`.error` with the thrown message. -/
def sanitizeFieldName (fieldName : String) : Except String String :=
  if fieldName.data.any forbiddenFieldChar then
    .error "Invalid field name: contains forbidden characters (\x7b\x7d, newlines)"
  else
    let trimmed := jsTrim fieldName
    if trimmed.length = 0 then
      .error "Field name cannot be empty"
    else
      .ok trimmed

/-- A JavaScript number as used by the query helpers: `NaN`, the two
infinities, or a finite value.  Finite values are restricted to
integers, which covers every value these functions parse (`parseInt`
results) and every numeric literal of the claims. -/
inductive JSNum where
  | nan
  | inf
  | negInf
  | int (n : Int)
deriving DecidableEq

/-- The test `Number.isFinite` on the model. -/
def JSNum.isFinite : JSNum → Bool
  | .int _ => true
  | _ => false

/-- JavaScript `<=` on numbers: any comparison involving `NaN` is
false; `-Infinity` is below and `Infinity` above every non-`NaN` value. -/
def jsLe : JSNum → JSNum → Bool
  | .nan, _ => false
  | _, .nan => false
  | .negInf, _ => true
  | _, .inf => true
  | .inf, _ => false
  | _, .negInf => false
  | .int m, .int n => m ≤ n

/-- JavaScript `>=` on numbers. -/
def jsGe (a b : JSNum) : Bool := jsLe b a

/-- Value of the leading run of decimal digits, if non-empty (the digit
scan of `parseInt` with radix 10). -/
def parseLeadingDigits (l : List Char) : Option Nat :=
  let ds := l.takeWhile Char.isDigit
  if ds.isEmpty then none
  else some (ds.foldl (fun acc c => acc * 10 + (c.toNat - 48)) 0)

/-- Model of the JavaScript builtin `parseInt(s)` on decimal input:
skip leading whitespace, read an optional sign and then the longest run
of decimal digits; no digits gives `NaN`.  (The `0x` hexadecimal prefix
of the builtin is not modelled; no caller in this code feeds it
hexadecimal text.) -/
def jsParseInt (s : String) : JSNum :=
  match s.data.dropWhile jsWhitespace with
  | '-' :: rest =>
    (match parseLeadingDigits rest with
     | some n => .int (-(n : Int))
     | none => .nan)
  | '+' :: rest =>
    (match parseLeadingDigits rest with
     | some n => .int (n : Int)
     | none => .nan)
  | l =>
    (match parseLeadingDigits l with
     | some n => .int (n : Int)
     | none => .nan)

/-- The builtin `parseInt` applied to element `i` of a split result: a missing
element is JavaScript `undefined`, and `parseInt(undefined)` is `NaN`. -/
def jsParseIntAt (parts : List String) (i : Nat) : JSNum :=
  match parts[i]? with
  | some s => jsParseInt s
  | none => .nan

/-- Embeds `str.replace('+', '')`: a `replace` with a string pattern replaces only the
first occurrence. -/
def removeFirstPlus : List Char → List Char
  | [] => []
  | c :: cs => if c = '+' then cs else c :: removeFirstPlus cs

/-- JavaScript `split` with a one-character separator, on character
lists: `"a-b".split('-') = ["a","b"]`, `"".split('-') = [""]`,
`"a--b".split('-') = ["a","","b"]`. -/
def splitOnChar (sep : Char) : List Char → List (List Char)
  | [] => [[]]
  | c :: rest =>
    if c = sep then [] :: splitOnChar sep rest
    else
      match splitOnChar sep rest with
      | [] => [[c]]
      | cur :: others => (c :: cur) :: others

/-- The split `rangeStr.split('-')` as a list of strings. -/
def jsSplitDash (s : String) : List String :=
  (splitOnChar '-' s.data).map List.asString

/-- The record type `AgeRangeOption` of query-helpers.ts lines 6-11.
`maxAge` is `number | null`; `none` embeds `null` (the unbounded
"65+"-style bucket), and a `NaN` bound from a malformed label is
`some .nan`. -/
structure AgeRangeOption where
  id : String
  name : String
  minAge : JSNum
  maxAge : Option JSNum
deriving DecidableEq

/-- Embeds `parseAgeRange` (query-helpers.ts lines 16-35): split on
`-`; a string containing `+` becomes an unbounded bucket whose lower
bound is `parseInt` of the string with its first `+` removed; otherwise
both bounds come from `parseInt` of the split parts. -/
def parseAgeRange (rangeStr : String) : AgeRangeOption :=
  let parts := jsSplitDash rangeStr
  if rangeStr.data.contains '+' then
    { id := "", name := rangeStr,
      minAge := jsParseInt (removeFirstPlus rangeStr.data).asString,
      maxAge := none }
  else
    { id := "", name := rangeStr,
      minAge := jsParseIntAt parts 0,
      maxAge := some (jsParseIntAt parts 1) }

/-- The accumulation loop of `findOverlappingAgeRanges`
(query-helpers.ts lines 51-65), pushing the name of every parsed range
that overlaps the query range, in order. -/
def findOverlappingLoop (minAge maxAge : JSNum) : List AgeRangeOption → List String
  | [] => []
  | range :: rest =>
    match range.maxAge with
    | none =>
      if jsGe maxAge range.minAge then
        range.name :: findOverlappingLoop minAge maxAge rest
      else
        findOverlappingLoop minAge maxAge rest
    | some high =>
      if jsLe range.minAge maxAge && jsGe high minAge then
        range.name :: findOverlappingLoop minAge maxAge rest
      else
        findOverlappingLoop minAge maxAge rest

/-- Embeds `findOverlappingAgeRanges` (query-helpers.ts lines 43-68). -/
def findOverlappingAgeRanges (minAge maxAge : JSNum) (availableRanges : List String) :
    List String :=
  findOverlappingLoop minAge maxAge (availableRanges.map parseAgeRange)

/-- The overlap test of the claim, on one parsed bucket: a bounded
bucket `[low, high]` overlaps `[minAge, maxAge]` iff
`low <= maxAge AND high >= minAge`; an unbounded bucket `[low, ∞)`
overlaps iff `maxAge >= low`. -/
def overlapsQuery (minAge maxAge : JSNum) (r : AgeRangeOption) : Bool :=
  match r.maxAge with
  | none => jsGe maxAge r.minAge
  | some high => jsLe r.minAge maxAge && jsGe high minAge

/-- The equality leaf `` {Field} = 'Bucket' `` with the bucket escaped,
as produced by `buildAgeRangeFormula`. -/
def eqLeaf (field bucket : String) : String :=
  "\x7b" ++ field ++ "\x7d = \x27" ++ escapeFormulaString bucket ++ "\x27"

/-- The shape `buildAgeRangeFormula` gives to the list of overlapping
bucket names, per the claim: `FALSE()` for none, one unwrapped equality
leaf for exactly one, `OR(...)` of the leaves in list order otherwise. -/
def ageFormulaShape (field : String) : List String → String
  | [] => "FALSE()"
  | [range] => eqLeaf field range
  | ranges => "OR(" ++ String.intercalate ", " (ranges.map (eqLeaf field)) ++ ")"

/-- Embeds `buildAgeRangeFormula` (query-helpers.ts lines 76-99):
sanitize the field name, find overlapping buckets, and emit `FALSE()`,
a single equality leaf, or an `OR(...)` of leaves. -/
def buildAgeRangeFormula (fieldName : String) (minAge maxAge : JSNum)
    (availableRanges : List String) : Except String String :=
  match sanitizeFieldName fieldName with
  | .error e => .error e
  | .ok sanitizedFieldName =>
    match findOverlappingAgeRanges minAge maxAge availableRanges with
    | [] => .ok "FALSE()"
    | [range] => .ok (eqLeaf sanitizedFieldName range)
    | ranges =>
      .ok ("OR(" ++ String.intercalate ", " (ranges.map (eqLeaf sanitizedFieldName)) ++ ")")

/-- ASCII lower-casing, the fragment of `String.prototype.toLowerCase`
exercised by this code (option names and search tokens are ASCII). -/
def toLowerJS (s : String) : String := (s.data.map Char.toLower).asString

/-- Tests that `l1` is a prefix of `l2` (character lists). -/
def isPrefixL : List Char → List Char → Bool
  | [], _ => true
  | _ :: _, [] => false
  | a :: as, b :: bs => a = b && isPrefixL as bs

/-- Tests that `needle` occurs as a contiguous run inside `haystack`. -/
def subOccurs (needle : List Char) : List Char → Bool
  | [] => needle.isEmpty
  | c :: rest => isPrefixL needle (c :: rest) || subOccurs needle rest

/-- Embeds `haystack.includes(needle)`: substring containment. -/
def strContainsSub (haystack needle : String) : Bool :=
  subOccurs needle.data haystack.data

/-- Embeds `fuzzyMatchOptions` (query-helpers.ts lines 141-149): the
options whose lower-cased form contains the lower-cased search term as
a substring. -/
def fuzzyMatchOptions (searchTerm : String) (availableOptions : List String) : List String :=
  availableOptions.filter (fun option => strContainsSub (toLowerJS option) (toLowerJS searchTerm))

/-- The `add` operation of a JavaScript `Set` kept as an insertion-ordered list:
append the element if absent, otherwise leave the list unchanged. -/
def insertUnique (resolved : List String) (x : String) : List String :=
  if x ∈ resolved then resolved else resolved ++ [x]

/-- One iteration of the resolution loop of
`resolveOptionsWithFuzzyMatch` (query-helpers.ts lines 166-179): first
try a case-insensitive exact match (`find` takes the first hit); on
failure add every fuzzy match. -/
def resolveStep (availableOptions : List String) (resolved : List String) (value : String) :
    List String :=
  match availableOptions.find? (fun opt => toLowerJS opt == toLowerJS value) with
  | some exactMatch => insertUnique resolved exactMatch
  | none => (fuzzyMatchOptions value availableOptions).foldl insertUnique resolved

/-- Embeds `resolveOptionsWithFuzzyMatch` (query-helpers.ts lines
155-182): with no (or an empty) vocabulary the values pass through
unchanged; otherwise each value is resolved and accumulated into an
insertion-ordered set, returned via `Array.from`. -/
def resolveOptionsWithFuzzyMatch (values : List String)
    (availableOptions : Option (List String)) : List String :=
  match availableOptions with
  | none => values
  | some opts =>
    if opts.length = 0 then values
    else values.foldl (resolveStep opts) []

/-- What one token resolves to, per the claim: only the first
case-insensitive exact vocabulary match when one exists, otherwise
every case-insensitive substring match. -/
def resolveToken (opts : List String) (value : String) : List String :=
  match opts.find? (fun opt => toLowerJS opt == toLowerJS value) with
  | some exactMatch => [exactMatch]
  | none => fuzzyMatchOptions value opts

/-- The containment leaf `FIND('value', ARRAYJOIN({Field}))` with the
value escaped, shared by the three multiple-select builders. -/
def findLeaf (field value : String) : String :=
  "FIND(\x27" ++ escapeFormulaString value ++ "\x27, ARRAYJOIN(\x7b" ++ field ++ "\x7d))"

/-- The shared expression
`useFuzzyMatch && availableOptions ? resolveOptionsWithFuzzyMatch(values, availableOptions) : values`
of the three multiple-select builders (an empty vocabulary array is
truthy in JavaScript, so `some []` still takes the resolve branch,
which passes the values through). -/
def resolvedValuesOf (values : List String) (availableOptions : Option (List String))
    (useFuzzyMatch : Bool) : List String :=
  match useFuzzyMatch, availableOptions with
  | true, some opts => resolveOptionsWithFuzzyMatch values (some opts)
  | _, _ => values

/-- Embeds `buildMultipleSelectHasAny` (query-helpers.ts lines
193-224). -/
def buildMultipleSelectHasAny (fieldName : String) (values : List String)
    (availableOptions : Option (List String)) (useFuzzyMatch : Bool) : Except String String :=
  match sanitizeFieldName fieldName with
  | .error e => .error e
  | .ok sanitizedFieldName =>
    if values.length = 0 then .ok "FALSE()"
    else
      match resolvedValuesOf values availableOptions useFuzzyMatch with
      | [] => .ok "FALSE()"
      | [value] => .ok (findLeaf sanitizedFieldName value)
      | vs => .ok ("OR(" ++ String.intercalate ", " (vs.map (findLeaf sanitizedFieldName)) ++ ")")

/-- Embeds `buildMultipleSelectHasAll` (query-helpers.ts lines
234-260): note the source wraps even a single condition in `AND(...)`. -/
def buildMultipleSelectHasAll (fieldName : String) (values : List String)
    (availableOptions : Option (List String)) (useFuzzyMatch : Bool) : Except String String :=
  match sanitizeFieldName fieldName with
  | .error e => .error e
  | .ok sanitizedFieldName =>
    if values.length = 0 then .ok "TRUE()"
    else
      match resolvedValuesOf values availableOptions useFuzzyMatch with
      | [] => .ok "TRUE()"
      | vs => .ok ("AND(" ++ String.intercalate ", " (vs.map (findLeaf sanitizedFieldName)) ++ ")")

/-- Embeds `buildMultipleSelectHasNone` (query-helpers.ts lines
270-302). -/
def buildMultipleSelectHasNone (fieldName : String) (values : List String)
    (availableOptions : Option (List String)) (useFuzzyMatch : Bool) : Except String String :=
  match sanitizeFieldName fieldName with
  | .error e => .error e
  | .ok sanitizedFieldName =>
    if values.length = 0 then .ok "TRUE()"
    else
      match resolvedValuesOf values availableOptions useFuzzyMatch with
      | [] => .ok "TRUE()"
      | [value] => .ok ("NOT(" ++ findLeaf sanitizedFieldName value ++ ")")
      | vs =>
        .ok ("NOT(OR(" ++ String.intercalate ", " (vs.map (findLeaf sanitizedFieldName)) ++ "))")

/-- The shape `buildMultipleSelectHasNone` gives to a resolved-value
set, per the claim: `TRUE()` when empty, a single negated leaf for one
value, `NOT(OR(...))` for several. -/
def hasNoneShape (field : String) : List String → String
  | [] => "TRUE()"
  | [value] => "NOT(" ++ findLeaf field value ++ ")"
  | vs => "NOT(OR(" ++ String.intercalate ", " (vs.map (findLeaf field)) ++ "))"

/-- The `min` branch of `buildNumberRangeFormula` (query-helpers.ts
lines 338-344): absent contributes nothing, a non-finite bound throws,
a finite bound contributes one `>=` leaf. -/
def numberMinCondition (sanitizedFieldName : String) : Option JSNum →
    Except String (List String)
  | none => .ok []
  | some m =>
    match m with
    | .int n => .ok ["\x7b" ++ sanitizedFieldName ++ "\x7d >= " ++ toString n]
    | _ => .error "Minimum value must be a finite number"

/-- The `max` branch of `buildNumberRangeFormula` (query-helpers.ts
lines 346-352). -/
def numberMaxCondition (sanitizedFieldName : String) : Option JSNum →
    Except String (List String)
  | none => .ok []
  | some m =>
    match m with
    | .int n => .ok ["\x7b" ++ sanitizedFieldName ++ "\x7d <= " ++ toString n]
    | _ => .error "Maximum value must be a finite number"

/-- Embeds `buildNumberRangeFormula` (query-helpers.ts lines 330-363). -/
def buildNumberRangeFormula (fieldName : String) (min max : Option JSNum) :
    Except String String :=
  match sanitizeFieldName fieldName with
  | .error e => .error e
  | .ok sanitizedFieldName =>
    match numberMinCondition sanitizedFieldName min with
    | .error e => .error e
    | .ok minConds =>
      match numberMaxCondition sanitizedFieldName max with
      | .error e => .error e
      | .ok maxConds =>
        match minConds ++ maxConds with
        | [] => .ok "TRUE()"
        | [c] => .ok c
        | cs => .ok ("AND(" ++ String.intercalate ", " cs ++ ")")

/-- What `.` matches in a JavaScript regex without the `s` flag: any
character except a line terminator. -/
def jsDotMatches (c : Char) : Bool :=
  !(c = '\n' || c = '\r' || c = Char.ofNat 0x2028 || c = Char.ofNat 0x2029)

/-- Consume exactly `n` decimal digits, returning the rest of the
input, or `none` if fewer are present. -/
def takeDigits : Nat → List Char → Option (List Char)
  | 0, l => some l
  | _ + 1, [] => none
  | n + 1, c :: rest => if c.isDigit then takeDigits n rest else none

/-- The optional time part `(T\d\x7b2\x7d:\d\x7b2\x7d:\d\x7b2\x7d.*)?$` of the date
regex at the end of the date part: either the end of input, or `T`,
three colon-separated 2-digit groups, and any run of
non-line-terminator characters. -/
def isoTimeTail : List Char → Bool
  | [] => true
  | 'T' :: rest =>
    (match takeDigits 2 rest with
     | some (':' :: r1) =>
       (match takeDigits 2 r1 with
        | some (':' :: r2) =>
          (match takeDigits 2 r2 with
           | some r3 => r3.all jsDotMatches
           | none => false)
        | _ => false)
     | _ => false)
  | _ => false

/-- The anchored date regex `/^\d\x7b4\x7d-\d\x7b2\x7d-\d\x7b2\x7d(T\d\x7b2\x7d:\d\x7b2\x7d:\d\x7b2\x7d.*)?$/`
of `buildDateRangeFormula`. -/
def isoDateCheck (s : String) : Bool :=
  match takeDigits 4 s.data with
  | some ('-' :: r1) =>
    (match takeDigits 2 r1 with
     | some ('-' :: r2) =>
       (match takeDigits 2 r2 with
        | some r3 => isoTimeTail r3
        | none => false)
     | _ => false)
  | _ => false

/-- The `startDate` branch of `buildDateRangeFormula` (query-helpers.ts
lines 379-386): `if (startDate)` skips both the format check and the
leaf for `undefined` and for the falsy empty string. -/
def startCondition (sanitizedFieldName : String) : Option String →
    Except String (List String)
  | none => .ok []
  | some startDate =>
    if startDate = "" then .ok []
    else if isoDateCheck startDate then
      .ok ["IS_AFTER(\x7b" ++ sanitizedFieldName ++ "\x7d, \x27" ++
        escapeFormulaString startDate ++ "\x27)"]
    else
      .error "Start date must be in ISO 8601 format (YYYY-MM-DD or YYYY-MM-DDTHH:mm:ss)"

/-- The `endDate` branch of `buildDateRangeFormula` (query-helpers.ts
lines 388-395). -/
def endCondition (sanitizedFieldName : String) : Option String →
    Except String (List String)
  | none => .ok []
  | some endDate =>
    if endDate = "" then .ok []
    else if isoDateCheck endDate then
      .ok ["IS_BEFORE(\x7b" ++ sanitizedFieldName ++ "\x7d, \x27" ++
        escapeFormulaString endDate ++ "\x27)"]
    else
      .error "End date must be in ISO 8601 format (YYYY-MM-DD or YYYY-MM-DDTHH:mm:ss)"

/-- Embeds `buildDateRangeFormula` (query-helpers.ts lines 371-406). -/
def buildDateRangeFormula (fieldName : String) (startDate endDate : Option String) :
    Except String String :=
  match sanitizeFieldName fieldName with
  | .error e => .error e
  | .ok sanitizedFieldName =>
    match startCondition sanitizedFieldName startDate with
    | .error e => .error e
    | .ok startConds =>
      match endCondition sanitizedFieldName endDate with
      | .error e => .error e
      | .ok endConds =>
        match startConds ++ endConds with
        | [] => .ok "TRUE()"
        | [c] => .ok c
        | cs => .ok ("AND(" ++ String.intercalate ", " cs ++ ")")

/-- Embeds `combineFormulasAnd` (query-helpers.ts lines 411-423):
filter out falsy (empty) strings and the `TRUE()` identity, then return
the identity, the lone survivor, or an `AND(...)` wrapper. -/
def combineFormulasAnd (formulas : List String) : String :=
  match formulas.filter (fun f => f != "" && f != "TRUE()") with
  | [] => "TRUE()"
  | [f] => f
  | fs => "AND(" ++ String.intercalate ", " fs ++ ")"

/-- Embeds `combineFormulasOr` (query-helpers.ts lines 428-440). -/
def combineFormulasOr (formulas : List String) : String :=
  match formulas.filter (fun f => f != "" && f != "FALSE()") with
  | [] => "FALSE()"
  | [f] => f
  | fs => "OR(" ++ String.intercalate ", " fs ++ ")"

/-- Holds (is `true`) iff the computation threw. -/
def isErr {α : Type} : Except String α → Bool
  | .error _ => true
  | .ok _ => false

/-- The returned value of a computation that did not throw. -/
def okValue {α : Type} : Except String α → Option α
  | .ok a => some a
  | .error _ => none

theorem escapeChars_eq_bind (l : List Char) : escapeChars l = l.flatMap expandChar := by
  induction l with
  | nil => rfl
  | cons c cs ih =>
    by_cases h : c = squote <;> simp [escapeChars, expandChar, h, ih]

theorem pairedQuotes_cons_of_ne (c : Char) (l : List Char) (h : c ≠ squote) :
    pairedQuotes (c :: l) = pairedQuotes l := by
  cases l with
  | nil => simp [pairedQuotes, h]
  | cons c2 rest => simp [pairedQuotes, h]

theorem pairedQuotes_escapeChars (l : List Char) : pairedQuotes (escapeChars l) = true := by
  induction l with
  | nil => rfl
  | cons c cs ih =>
    by_cases h : c = squote
    · simp [escapeChars, h, pairedQuotes, ih]
    · rw [escapeChars, if_neg h, pairedQuotes_cons_of_ne c _ h, ih]

theorem hasBackslashQuote_cons (c : Char) (l : List Char) :
    hasBackslashQuote (c :: l) = ((c = bslash && headIsQuote l) || hasBackslashQuote l) := by
  cases l with
  | nil => simp [hasBackslashQuote, headIsQuote]
  | cons c2 rest => simp [hasBackslashQuote, headIsQuote]

theorem headIsQuote_escapeChars (l : List Char) :
    headIsQuote (escapeChars l) = headIsQuote l := by
  cases l with
  | nil => rfl
  | cons c cs =>
    by_cases h : c = squote <;> simp [escapeChars, headIsQuote, h]

theorem hasBackslashQuote_escapeChars (l : List Char) :
    hasBackslashQuote (escapeChars l) = hasBackslashQuote l := by
  induction l with
  | nil => rfl
  | cons c cs ih =>
    by_cases h : c = squote
    · rw [escapeChars, if_pos h, hasBackslashQuote_cons, hasBackslashQuote_cons,
        hasBackslashQuote_cons, headIsQuote_escapeChars, ih]
      subst h
      simp [headIsQuote]
      intro hbs
      exact absurd hbs (by decide)
    · rw [escapeChars, if_neg h, hasBackslashQuote_cons, hasBackslashQuote_cons,
        headIsQuote_escapeChars, ih]

/-- C1 (counterexample): the claim asserts the escaped output never
contains a backslash-quote pair, but on the two-character input
backslash-quote the output is backslash-quote-quote, whose first two
characters are a backslash-quote pair. -/
theorem C1_counterexample :
    hasBackslashQuote (escapeFormulaString "\\\x27").data = true := rfl

/-- C1 (amended): `escapeFormulaString` is a total function that
replaces every single-quote character by two single quotes and changes
nothing else; consequently the output contains no unescaped single
quote (every quote belongs to an adjacent quote pair), and the output
contains a backslash-quote pair if and only if the input already
contained one — in particular the escaping itself never introduces a
backslash-quote pair. -/
theorem C1_escapeFormulaString_amended (s : String) :
    escapeFormulaString s = (s.data.flatMap expandChar).asString
    ∧ pairedQuotes (escapeFormulaString s).data = true
    ∧ hasBackslashQuote (escapeFormulaString s).data = hasBackslashQuote s.data := by
  refine ⟨?_, ?_, ?_⟩
  · unfold escapeFormulaString
    rw [escapeChars_eq_bind]
  · exact pairedQuotes_escapeChars s.data
  · exact hasBackslashQuote_escapeChars s.data

theorem string_length_zero_iff (s : String) : s.length = 0 ↔ s = "" := by
  obtain ⟨data⟩ := s
  constructor
  · intro h
    have hd : data = [] := List.length_eq_zero.mp h
    subst hd
    rfl
  · intro h
    rw [h]
    rfl

/-- C2: `sanitizeFieldName` throws if and only if its input contains
one of the characters of the class `[{}\n\r]` or trims to the empty
string; for every other input it returns the trimmed input (and has no
other effect). -/
theorem C2_sanitizeFieldName_spec (s : String) :
    (isErr (sanitizeFieldName s) = true ↔
      s.data.any forbiddenFieldChar = true ∨ jsTrim s = "")
    ∧ okValue (sanitizeFieldName s) =
        (if s.data.any forbiddenFieldChar = true ∨ jsTrim s = "" then none
         else some (jsTrim s)) := by
  unfold sanitizeFieldName
  by_cases h1 : s.data.any forbiddenFieldChar = true
  · simp [h1, isErr, okValue]
  · by_cases h2 : jsTrim s = ""
    · have hlen : (jsTrim s).length = 0 := (string_length_zero_iff _).mpr h2
      simp [h1, h2, hlen, isErr, okValue]
    · have hlen : ¬ (jsTrim s).length = 0 := fun h => h2 ((string_length_zero_iff _).mp h)
      simp [h1, h2, hlen, isErr, okValue]

theorem findOverlappingLoop_cons (minAge maxAge : JSNum) (r : AgeRangeOption)
    (rest : List AgeRangeOption) :
    findOverlappingLoop minAge maxAge (r :: rest)
      = if overlapsQuery minAge maxAge r
        then r.name :: findOverlappingLoop minAge maxAge rest
        else findOverlappingLoop minAge maxAge rest := by
  obtain ⟨i, n, mn, mx⟩ := r
  cases mx <;> rfl

theorem parseAgeRange_name (s : String) : (parseAgeRange s).name = s := by
  unfold parseAgeRange
  split <;> rfl

theorem findOverlappingAgeRanges_eq_filter (minAge maxAge : JSNum) (ranges : List String) :
    findOverlappingAgeRanges minAge maxAge ranges
      = ranges.filter (fun s => overlapsQuery minAge maxAge (parseAgeRange s)) := by
  unfold findOverlappingAgeRanges
  induction ranges with
  | nil => rfl
  | cons s rest ih =>
    rw [List.map_cons, findOverlappingLoop_cons, List.filter_cons]
    by_cases h : overlapsQuery minAge maxAge (parseAgeRange s) <;>
      simp [h, ih, parseAgeRange_name]

/-- C3: `findOverlappingAgeRanges` returns, in the order they appear in
`availableRanges`, exactly the bucket names whose parsed bounds overlap
the query range (a bounded bucket `[low, high]` iff
`low <= maxAge AND high >= minAge`, an unbounded bucket `[low, ∞)` iff
`maxAge >= low`); on the concrete query `[29, 42]` over the six
standard buckets it returns exactly `["25-34", "35-44"]`. -/
theorem C3_findOverlappingAgeRanges_spec :
    (∀ (minAge maxAge : JSNum) (availableRanges : List String),
      findOverlappingAgeRanges minAge maxAge availableRanges
        = availableRanges.filter (fun s => overlapsQuery minAge maxAge (parseAgeRange s)))
    ∧ findOverlappingAgeRanges (.int 29) (.int 42)
        ["12-17", "18-24", "25-34", "35-44", "45-65", "65+"] = ["25-34", "35-44"] :=
  ⟨findOverlappingAgeRanges_eq_filter, rfl⟩

/-- C4: when the field name sanitizes successfully,
`buildAgeRangeFormula` returns exactly `FALSE()` when no bucket
overlaps the query range, a single equality leaf with no `OR` wrapper
when exactly one bucket overlaps, and an `OR(...)` of one equality leaf
per overlapping bucket — in the order the buckets were supplied in
`availableRanges` — when more than one overlaps. -/
theorem C4_buildAgeRangeFormula_spec (fieldName f : String) (minAge maxAge : JSNum)
    (availableRanges : List String) (h : sanitizeFieldName fieldName = .ok f) :
    buildAgeRangeFormula fieldName minAge maxAge availableRanges =
      .ok (ageFormulaShape f (availableRanges.filter
        (fun s => overlapsQuery minAge maxAge (parseAgeRange s)))) := by
  unfold buildAgeRangeFormula
  rw [h, findOverlappingAgeRanges_eq_filter]
  cases hx : availableRanges.filter (fun s => overlapsQuery minAge maxAge (parseAgeRange s)) with
  | nil => rfl
  | cons a rest => cases rest <;> rfl

/-- C4 (witness): `buildAgeRangeFormula("Age", 18, 24, buckets)` where
only `"18-24"` overlaps returns exactly the single leaf; the same call
over a non-overlapping catalog returns exactly `FALSE()`. -/
theorem C4_buildAgeRangeFormula_witness :
    buildAgeRangeFormula "Age" (.int 18) (.int 24)
        ["12-17", "18-24", "25-34", "35-44", "45-65", "65+"]
      = .ok "\x7bAge\x7d = \x2718-24\x27"
    ∧ buildAgeRangeFormula "Age" (.int 18) (.int 24) ["45-65", "65+"] = .ok "FALSE()"
    ∧ buildAgeRangeFormula "Age" (.int 29) (.int 42)
        ["12-17", "18-24", "25-34", "35-44", "45-65", "65+"]
      = .ok "OR(\x7bAge\x7d = \x2725-34\x27, \x7bAge\x7d = \x2735-44\x27)" :=
  ⟨(C4_buildAgeRangeFormula_spec "Age" "Age" (.int 18) (.int 24)
      ["12-17", "18-24", "25-34", "35-44", "45-65", "65+"] rfl).trans rfl,
   (C4_buildAgeRangeFormula_spec "Age" "Age" (.int 18) (.int 24)
      ["45-65", "65+"] rfl).trans rfl,
   (C4_buildAgeRangeFormula_spec "Age" "Age" (.int 29) (.int 42)
      ["12-17", "18-24", "25-34", "35-44", "45-65", "65+"] rfl).trans rfl⟩

/-- C5: both combinators first drop their identity sentinel (`TRUE()`
for AND, `FALSE()` for OR) and falsy/empty entries; zero survivors give
the identity sentinel back, one survivor is returned unwrapped, and two
or more are wrapped `AND(...)`/`OR(...)` in order; in particular
`combineFormulasAnd("TRUE()", "\x7bA\x7d = 'x'")` is exactly the second
argument. -/
theorem C5_combineFormulas_spec (formulas : List String) :
    combineFormulasAnd formulas =
      (match formulas.filter (fun f => f != "" && f != "TRUE()") with
       | [] => "TRUE()"
       | [f] => f
       | fs => "AND(" ++ String.intercalate ", " fs ++ ")")
    ∧ combineFormulasOr formulas =
      (match formulas.filter (fun f => f != "" && f != "FALSE()") with
       | [] => "FALSE()"
       | [f] => f
       | fs => "OR(" ++ String.intercalate ", " fs ++ ")")
    ∧ combineFormulasAnd ["TRUE()", "\x7bA\x7d = \x27x\x27"] = "\x7bA\x7d = \x27x\x27"
    ∧ combineFormulasOr ["FALSE()", "\x7bA\x7d = \x27x\x27"] = "\x7bA\x7d = \x27x\x27" :=
  ⟨rfl, rfl, rfl, rfl⟩

theorem resolveStep_eq (opts resolved : List String) (value : String) :
    resolveStep opts resolved value = (resolveToken opts value).foldl insertUnique resolved := by
  unfold resolveStep resolveToken
  cases opts.find? (fun opt => toLowerJS opt == toLowerJS value) <;> rfl

theorem foldl_resolveStep (opts vs : List String) (acc : List String) :
    vs.foldl (resolveStep opts) acc
      = (vs.flatMap (resolveToken opts)).foldl insertUnique acc := by
  induction vs generalizing acc with
  | nil => rfl
  | cons v rest ih =>
    rw [List.foldl_cons, List.flatMap_cons, List.foldl_append, resolveStep_eq, ih]

theorem insertUnique_nodup (l : List String) (x : String) (h : l.Nodup) :
    (insertUnique l x).Nodup := by
  unfold insertUnique
  split
  · exact h
  · next hx =>
    rw [List.nodup_append]
    exact ⟨h, List.nodup_singleton x, fun a ha hb => by
      rw [List.mem_singleton] at hb
      subst hb
      exact hx ha⟩

theorem foldl_insertUnique_nodup (l acc : List String) (h : acc.Nodup) :
    (l.foldl insertUnique acc).Nodup := by
  induction l generalizing acc with
  | nil => exact h
  | cons x rest ih => exact ih _ (insertUnique_nodup acc x h)

/-- C6: `resolveOptionsWithFuzzyMatch` returns the input values
unchanged when no vocabulary is supplied; otherwise each input token
resolves to only the canonical entry whose lowercase form equals the
token's (when one exists) and else to every entry containing the token
case-insensitively; the resolved names are accumulated in a
deduplicated set; and on vocabulary `["UGC Creator", "VO Creator"]`
with input `["UGC Creator"]` it returns exactly `["UGC Creator"]`. -/
theorem C6_resolveOptionsWithFuzzyMatch_spec (values opts : List String) :
    resolveOptionsWithFuzzyMatch values none = values
    ∧ resolveOptionsWithFuzzyMatch values (some opts) =
        (if opts.length = 0 then values
         else (values.flatMap (resolveToken opts)).foldl insertUnique [])
    ∧ (∀ l : List String, (l.foldl insertUnique []).Nodup)
    ∧ resolveOptionsWithFuzzyMatch ["UGC Creator"] (some ["UGC Creator", "VO Creator"])
        = ["UGC Creator"] := by
  refine ⟨rfl, ?_, fun l => foldl_insertUnique_nodup l [] List.nodup_nil, rfl⟩
  show (if opts.length = 0 then values else values.foldl (resolveStep opts) []) = _
  split
  · rfl
  · exact foldl_resolveStep opts values []

theorem resolvedValuesOf_fuzzy (values opts : List String) :
    resolvedValuesOf values (some opts) true = resolveOptionsWithFuzzyMatch values (some opts) :=
  rfl

theorem resolveOptionsWithFuzzyMatch_nil (opts : List String) :
    resolveOptionsWithFuzzyMatch [] (some opts) = [] := by
  show (if opts.length = 0 then ([] : List String) else List.foldl (resolveStep opts) [] []) = []
  split <;> rfl

/-- C7: for structurally-empty input — an empty values list, or a
non-empty values list whose fuzzy resolution yields the empty set —
`buildMultipleSelectHasAny` returns exactly `FALSE()` and
`buildMultipleSelectHasAll` returns exactly `TRUE()` without throwing,
provided the field name passes sanitization. -/
theorem C7_structurallyEmpty_spec (fieldName f : String) (values opts : List String)
    (availableOptions : Option (List String)) (useFuzzyMatch : Bool)
    (h : sanitizeFieldName fieldName = .ok f) :
    buildMultipleSelectHasAny fieldName [] availableOptions useFuzzyMatch = .ok "FALSE()"
    ∧ buildMultipleSelectHasAll fieldName [] availableOptions useFuzzyMatch = .ok "TRUE()"
    ∧ (resolveOptionsWithFuzzyMatch values (some opts) = [] →
        buildMultipleSelectHasAny fieldName values (some opts) true = .ok "FALSE()"
        ∧ buildMultipleSelectHasAll fieldName values (some opts) true = .ok "TRUE()") := by
  refine ⟨?_, ?_, fun hr => ⟨?_, ?_⟩⟩
  · unfold buildMultipleSelectHasAny
    rw [h]
    rfl
  · unfold buildMultipleSelectHasAll
    rw [h]
    rfl
  · unfold buildMultipleSelectHasAny
    rw [h]
    cases values with
    | nil => rfl
    | cons v vs =>
      show (if (v :: vs).length = 0 then Except.ok "FALSE()" else _) = _
      rw [if_neg (by simp), resolvedValuesOf_fuzzy, hr]
  · unfold buildMultipleSelectHasAll
    rw [h]
    cases values with
    | nil => rfl
    | cons v vs =>
      show (if (v :: vs).length = 0 then Except.ok "TRUE()" else _) = _
      rw [if_neg (by simp), resolvedValuesOf_fuzzy, hr]

/-- C7 (witness): the theorem at the concrete field `"Field"`, the
empty values list, and a non-empty values list `["zz"]` whose fuzzy
resolution against the vocabulary `["A"]` is empty. -/
theorem C7_structurallyEmpty_witness :
    buildMultipleSelectHasAny "Field" [] none true = .ok "FALSE()"
    ∧ buildMultipleSelectHasAll "Field" [] none true = .ok "TRUE()"
    ∧ buildMultipleSelectHasAny "Field" ["zz"] (some ["A"]) true = .ok "FALSE()"
    ∧ buildMultipleSelectHasAll "Field" ["zz"] (some ["A"]) true = .ok "TRUE()" :=
  have h := C7_structurallyEmpty_spec "Field" "Field" ["zz"] ["A"] none true rfl
  ⟨h.1, h.2.1, (h.2.2 rfl).1, (h.2.2 rfl).2⟩

/-- C8: `buildMultipleSelectHasNone` (field name sanitizing
successfully) returns exactly `TRUE()` for an empty resolved-value set,
a single negated containment leaf `NOT(FIND('v', ARRAYJOIN(...)))` —
not a negated disjunction — for one resolved value, and `NOT(OR(...))`
over one containment leaf per value for several; this holds both
without a vocabulary (values used verbatim) and with fuzzy resolution. -/
theorem C8_buildMultipleSelectHasNone_spec (fieldName f : String) (values opts : List String)
    (h : sanitizeFieldName fieldName = .ok f) :
    buildMultipleSelectHasNone fieldName values none true = .ok (hasNoneShape f values)
    ∧ buildMultipleSelectHasNone fieldName values (some opts) true
        = .ok (hasNoneShape f (resolveOptionsWithFuzzyMatch values (some opts)))
    ∧ (∀ (ao : Option (List String)) (u : Bool),
        buildMultipleSelectHasNone fieldName [] ao u = .ok "TRUE()") := by
  refine ⟨?_, ?_, fun ao u => ?_⟩
  · unfold buildMultipleSelectHasNone
    rw [h]
    cases values with
    | nil => rfl
    | cons v vs => cases vs <;> rfl
  · unfold buildMultipleSelectHasNone
    rw [h]
    cases values with
    | nil => rw [resolveOptionsWithFuzzyMatch_nil]; rfl
    | cons v vs =>
      show (if (v :: vs).length = 0 then Except.ok "TRUE()" else _) = _
      rw [if_neg (by simp), resolvedValuesOf_fuzzy]
      cases hx : resolveOptionsWithFuzzyMatch (v :: vs) (some opts) with
      | nil => rfl
      | cons a rest => cases rest <;> rfl
  · unfold buildMultipleSelectHasNone
    rw [h]
    rfl

/-- C8 (witness): the theorem at field `"Tags"` and values `["X"]`:
a single-leaf negation, not a disjunction-negation. -/
theorem C8_buildMultipleSelectHasNone_witness :
    buildMultipleSelectHasNone "Tags" ["X"] none true
      = .ok "NOT(FIND(\x27X\x27, ARRAYJOIN(\x7bTags\x7d)))"
    ∧ buildMultipleSelectHasNone "Tags" [] none true = .ok "TRUE()" :=
  have h := C8_buildMultipleSelectHasNone_spec "Tags" "Tags" ["X"] [] rfl
  ⟨h.1.trans rfl, h.2.2 none true⟩

theorem intercalate_pair (sep a b : String) : String.intercalate sep [a, b] = a ++ sep ++ b :=
  rfl

/-- C9: `buildNumberRangeFormula` (field name sanitizing successfully)
throws whenever a supplied bound is non-finite (`NaN`, `Infinity` or
`-Infinity`); with no bounds it returns exactly `TRUE()`; with one
finite bound it returns a single unwrapped comparison leaf (`>=` for
min, `<=` for max); with both finite bounds it returns the `AND` of the
two leaves. -/
theorem C9_buildNumberRangeFormula_spec (fieldName f : String)
    (h : sanitizeFieldName fieldName = .ok f) :
    (∀ (m : JSNum) (mx : Option JSNum), m.isFinite = false →
        isErr (buildNumberRangeFormula fieldName (some m) mx) = true)
    ∧ (∀ mx : JSNum, mx.isFinite = false →
        isErr (buildNumberRangeFormula fieldName none (some mx)) = true
        ∧ ∀ k : Int, isErr (buildNumberRangeFormula fieldName (some (.int k)) (some mx)) = true)
    ∧ buildNumberRangeFormula fieldName none none = .ok "TRUE()"
    ∧ (∀ n : Int,
        buildNumberRangeFormula fieldName (some (.int n)) none
          = .ok ("\x7b" ++ f ++ "\x7d >= " ++ toString n)
        ∧ buildNumberRangeFormula fieldName none (some (.int n))
          = .ok ("\x7b" ++ f ++ "\x7d <= " ++ toString n))
    ∧ (∀ m n : Int,
        buildNumberRangeFormula fieldName (some (.int m)) (some (.int n))
          = .ok ("AND(\x7b" ++ f ++ "\x7d >= " ++ toString m
              ++ ", \x7b" ++ f ++ "\x7d <= " ++ toString n ++ ")")) := by
  refine ⟨fun m mx hm => ?_, fun mx hm => ⟨?_, fun k => ?_⟩, ?_, fun n => ⟨?_, ?_⟩,
    fun m n => ?_⟩
  · unfold buildNumberRangeFormula
    rw [h]
    cases m with
    | int n => simp [JSNum.isFinite] at hm
    | nan => rfl
    | inf => rfl
    | negInf => rfl
  · unfold buildNumberRangeFormula
    rw [h]
    cases mx with
    | int n => simp [JSNum.isFinite] at hm
    | nan => rfl
    | inf => rfl
    | negInf => rfl
  · unfold buildNumberRangeFormula
    rw [h]
    cases mx with
    | int n => simp [JSNum.isFinite] at hm
    | nan => rfl
    | inf => rfl
    | negInf => rfl
  · unfold buildNumberRangeFormula
    rw [h]
    rfl
  · unfold buildNumberRangeFormula
    rw [h]
    rfl
  · unfold buildNumberRangeFormula
    rw [h]
    rfl
  · unfold buildNumberRangeFormula
    rw [h]
    show Except.ok ("AND(" ++ String.intercalate ", "
        ["\x7b" ++ f ++ "\x7d >= " ++ toString m, "\x7b" ++ f ++ "\x7d <= " ++ toString n]
        ++ ")") = _
    rw [intercalate_pair]
    simp only [String.append_assoc]
    rfl

/-- C9 (witness): the theorem at field `"Rating"`: `NaN` and
`Infinity` bounds throw, no bounds give `TRUE()`, bound `3`/`5` give
the leaves and their `AND`. -/
theorem C9_buildNumberRangeFormula_witness :
    isErr (buildNumberRangeFormula "Rating" (some .nan) (some (.int 5))) = true
    ∧ isErr (buildNumberRangeFormula "Rating" (some .inf) (some (.int 5))) = true
    ∧ buildNumberRangeFormula "Rating" none none = .ok "TRUE()"
    ∧ buildNumberRangeFormula "Rating" (some (.int 3)) none = .ok "\x7bRating\x7d >= 3"
    ∧ buildNumberRangeFormula "Rating" (some (.int 3)) (some (.int 5))
        = .ok "AND(\x7bRating\x7d >= 3, \x7bRating\x7d <= 5)" :=
  have h := C9_buildNumberRangeFormula_spec "Rating" "Rating" rfl
  ⟨h.1 .nan (some (.int 5)) rfl, h.1 .inf (some (.int 5)) rfl, h.2.2.1,
   ((h.2.2.2.1 3).1).trans rfl, (h.2.2.2.2 3 5).trans rfl⟩

/-- C10: `buildDateRangeFormula` treats an empty-string bound as absent
rather than invalid: for a field name that sanitizes successfully,
passing `""` as `startDate` or `endDate` does not throw and contributes
no comparison leaf (behaving exactly like an absent bound), so the call
with both bounds `""` returns exactly `TRUE()` — even though `""` does
not match the required ISO-8601 pattern. -/
theorem C10_buildDateRangeFormula_empty_spec (fieldName f : String)
    (h : sanitizeFieldName fieldName = .ok f) :
    buildDateRangeFormula fieldName (some "") (some "") = .ok "TRUE()"
    ∧ (∀ d : Option String,
        buildDateRangeFormula fieldName (some "") d = buildDateRangeFormula fieldName none d)
    ∧ (∀ d : Option String,
        buildDateRangeFormula fieldName d (some "") = buildDateRangeFormula fieldName d none)
    ∧ isoDateCheck "" = false := by
  refine ⟨?_, fun d => ?_, fun d => ?_, rfl⟩
  · unfold buildDateRangeFormula
    rw [h]
    rfl
  · unfold buildDateRangeFormula
    rw [h]
    rfl
  · unfold buildDateRangeFormula
    rw [h]
    rfl

/-- C10 (witness): the theorem at field `"Created"`. -/
theorem C10_buildDateRangeFormula_empty_witness :
    buildDateRangeFormula "Created" (some "") (some "") = .ok "TRUE()"
    ∧ buildDateRangeFormula "Created" (some "") (some "2024-12-31")
        = buildDateRangeFormula "Created" none (some "2024-12-31")
    ∧ isoDateCheck "" = false :=
  have h := C10_buildDateRangeFormula_empty_spec "Created" "Created" rfl
  ⟨h.1, h.2.1 (some "2024-12-31"), h.2.2.2⟩
